import Mathlib

/-!
Shallow embedding of the Grocy Home Assistant integration's calendar and
coordinator logic (custom_components/grocy/calendar.py and coordinator.py),
with theorems settling the specification claims about them.

Conventions of the embedding:
* Python `datetime` values are modelled by `PyDateTime`: a wall-clock reading
  in integer microseconds (`wall`) together with an optional timezone label
  (`tz`).  A naive datetime has `tz = none`.  Timezones are modelled as fixed
  offsets from UTC in microseconds; the configured Home Assistant local zone
  is the distinguished label `Tz.local`, whose offset is the parameter
  `localOff` threaded through the functions (DST transitions are outside the
  scope of the claims).
* Python `date` values are ordinal day numbers (`Int`); `datetime.combine`
  becomes `combine`.
* Comparison and subtraction of aware datetimes in Python act on the denoted
  instant; `PyDateTime.instant` computes it.
* Fallible effects (HTTP fetches, iCal parsing) enter as explicit environment
  arguments (`ICalResponse`, `fetchUrlResult`); a `try`/`except` block becomes
  a `match` on an `Except` value produced by the embedded `try` body.
-/

namespace Grocy

/-- Microseconds per minute (`timedelta(minutes=1)`). -/
def usPerMinute : Int := 60000000

/-- Microseconds per hour (`timedelta(hours=1)`). -/
def usPerHour : Int := 3600000000

/-- Microseconds per day (`timedelta(days=1)`). -/
def usPerDay : Int := 86400000000

/-- `datetime.max.time()` = 23:59:59.999999, in microseconds since midnight. -/
def maxTimeUs : Int := 86399999999

/-- A timezone label: UTC, the configured local zone, or some other fixed
offset (microseconds east of UTC). -/
inductive Tz
  | utc
  | local
  | other (offsetUs : Int)
  deriving DecidableEq, Repr

/-- Offset from UTC of a timezone label, in microseconds; `localOff` is the
offset of the configured local zone. -/
def Tz.offset (localOff : Int) : Tz → Int
  | .utc => 0
  | .local => localOff
  | .other o => o

/-- A Python `datetime`: wall-clock reading in microseconds plus an optional
timezone label (`none` = naive). -/
structure PyDateTime where
  wall : Int
  tz : Option Tz
  deriving DecidableEq, Repr

/-- The instant denoted by a datetime, in microseconds UTC.  For a naive
datetime Python compares wall clocks, so we take the wall reading itself. -/
def PyDateTime.instant (localOff : Int) (dt : PyDateTime) : Int :=
  match dt.tz with
  | none => dt.wall
  | some tz => dt.wall - tz.offset localOff

/-- `homeassistant.util.dt.as_local`: convert to the configured local zone,
preserving the instant; a naive input is assumed to already be local. -/
def as_local (localOff : Int) (dt : PyDateTime) : PyDateTime :=
  match dt.tz with
  | none => { dt with tz := some Tz.local }
  | some tz => { wall := dt.wall - tz.offset localOff + localOff, tz := some Tz.local }

/-- The `is_utc` test of `_convert_datetime_to_local`: the tzinfo is the UTC
singleton, or stringifies to "UTC", or is a pytz zone named "UTC" — in the
model, exactly the label `Tz.utc`. -/
def is_utc_tz : Tz → Bool
  | .utc => true
  | _ => false

/-- `GrocyCalendarEntity._convert_datetime_to_local` (calendar.py:276-322).
`fixTimezone` is the entity's `_fix_timezone` flag. -/
def convert_datetime_to_local (fixTimezone : Bool) (localOff : Int)
    (dt : PyDateTime) : PyDateTime :=
  match dt.tz with
  | none =>
    -- Naive datetime - assume UTC and convert to local
    as_local localOff { dt with tz := some Tz.utc }
  | some tz =>
    if fixTimezone && is_utc_tz tz then
      -- Fix for Grocy addon: treat UTC as local time
      { dt with tz := some Tz.local }
    else
      -- Standard timezone conversion
      as_local localOff dt

/-- C1: when timezone-fix mode is on and the input carries the UTC label, the
wall-clock reading is kept and only the tzinfo is replaced by the local zone;
when fix mode is off or the label is non-UTC, the datetime is converted to
local time preserving the instant; a naive datetime is treated as UTC and
converted to local time. -/
theorem convert_datetime_to_local_spec (fixTimezone : Bool) (localOff : Int)
    (dt : PyDateTime) :
    (dt.tz = some Tz.utc → fixTimezone = true →
      convert_datetime_to_local fixTimezone localOff dt
        = { wall := dt.wall, tz := some Tz.local }) ∧
    (∀ t : Tz, dt.tz = some t → (fixTimezone = false ∨ is_utc_tz t = false) →
      (convert_datetime_to_local fixTimezone localOff dt).tz = some Tz.local ∧
      (convert_datetime_to_local fixTimezone localOff dt).instant localOff
        = dt.instant localOff) ∧
    (dt.tz = none →
      convert_datetime_to_local fixTimezone localOff dt
        = { wall := dt.wall + localOff, tz := some Tz.local }) := by
  refine ⟨?_, ?_, ?_⟩
  · intro htz hfix
    simp [convert_datetime_to_local, htz, hfix, is_utc_tz]
  · intro t htz hcase
    obtain ⟨w, tz0⟩ := dt
    simp only at htz
    subst htz
    rcases hcase with h | h <;>
      simp [convert_datetime_to_local, h, as_local, PyDateTime.instant] <;>
      cases t <;> simp_all [is_utc_tz, as_local, PyDateTime.instant, Tz.offset]
  · intro htz
    obtain ⟨w, tz0⟩ := dt
    simp only at htz
    subst htz
    simp [convert_datetime_to_local, as_local, Tz.offset]

/-- Witness: the C1 theorem applied at concrete inputs, one per case. -/
theorem convert_datetime_to_local_spec_witness :
    convert_datetime_to_local true 7 { wall := 100, tz := some Tz.utc }
      = { wall := 100, tz := some Tz.local } ∧
    ((convert_datetime_to_local false 7 { wall := 100, tz := some Tz.utc }).tz
        = some Tz.local ∧
     (convert_datetime_to_local false 7 { wall := 100, tz := some Tz.utc }).instant 7
        = PyDateTime.instant 7 { wall := 100, tz := some Tz.utc }) ∧
    convert_datetime_to_local true 7 { wall := 100, tz := none }
      = { wall := 107, tz := some Tz.local } :=
  ⟨(convert_datetime_to_local_spec true 7 { wall := 100, tz := some Tz.utc }).1
      rfl rfl,
   (convert_datetime_to_local_spec false 7 { wall := 100, tz := some Tz.utc }).2.1
      Tz.utc rfl (Or.inl rfl),
   (convert_datetime_to_local_spec true 7 { wall := 100, tz := none }).2.2 rfl⟩

/-! ## Calendar events and the `event` property (calendar.py:102-125) -/

/-- `homeassistant.components.calendar.CalendarEvent`, restricted to the fields
the integration sets.  `end_` embeds the `end` attribute. -/
structure CalendarEvent where
  summary : String
  start : PyDateTime
  end_ : PyDateTime
  description : String
  location : String
  uid : String
  deriving DecidableEq, Repr

/-- Python `<=` between datetimes (instant comparison for aware values). -/
def dtLe (localOff : Int) (a b : PyDateTime) : Bool :=
  decide (a.instant localOff ≤ b.instant localOff)

/-- Python `<` between datetimes. -/
def dtLt (localOff : Int) (a b : PyDateTime) : Bool :=
  decide (a.instant localOff < b.instant localOff)

/-- `now + timedelta(days=n)`: wall clock shifts, tz label kept. -/
def addDays (n : Int) (dt : PyDateTime) : PyDateTime :=
  { dt with wall := dt.wall + n * usPerDay }

/-- The list comprehension in the `event` property: events that are currently
happening (`start <= now <= end`) or upcoming (`start > now`). -/
def current_or_upcoming (localOff : Int) (now : PyDateTime)
    (events : List CalendarEvent) : List CalendarEvent :=
  events.filter fun e =>
    (dtLe localOff e.start now && dtLe localOff now e.end_) || dtLt localOff now e.start

/-- Python `min(xs, key=lambda e: e.start)` on a nonempty list: the first
element whose key is strictly smaller than every earlier minimum. -/
def pyMinByStart (localOff : Int) (e : CalendarEvent) (es : List CalendarEvent) :
    CalendarEvent :=
  es.foldl (fun acc x => if dtLt localOff x.start acc.start then x else acc) e

/-- `GrocyCalendarEntity.event` (calendar.py:102-125), with the current time
`now` passed explicitly.  The source's return type is `CalendarEvent | None`;
the body always produces an event, hence `some` in both branches. -/
def event_property (localOff : Int) (now : PyDateTime)
    (events : List CalendarEvent) : Option CalendarEvent :=
  match current_or_upcoming localOff now events with
  | [] =>
    -- Always return a placeholder event so calendar shows "on" when enabled
    let future_date := addDays 365 now
    some { summary := "No upcoming events", start := future_date, end_ := future_date,
           description := "", location := "", uid := "" }
  | e :: es =>
    -- Return the earliest event (current or upcoming)
    some (pyMinByStart localOff e es)

theorem pyMinByStart_cons (localOff : Int) (e x : CalendarEvent)
    (es : List CalendarEvent) :
    pyMinByStart localOff e (x :: es)
      = pyMinByStart localOff (if dtLt localOff x.start e.start then x else e) es :=
  rfl

theorem pyMinByStart_mem (localOff : Int) (e : CalendarEvent)
    (es : List CalendarEvent) : pyMinByStart localOff e es ∈ e :: es := by
  induction es generalizing e with
  | nil => simp [pyMinByStart]
  | cons x xs ih =>
    rw [pyMinByStart_cons]
    by_cases h : dtLt localOff x.start e.start = true
    · rw [if_pos h]
      exact List.mem_cons_of_mem e (ih x)
    · rw [if_neg h]
      rcases List.mem_cons.mp (ih e) with h1 | h1
      · rw [h1]
        exact List.mem_cons_self _ _
      · exact List.mem_cons_of_mem _ (List.mem_cons_of_mem x h1)

theorem pyMinByStart_le (localOff : Int) (e : CalendarEvent)
    (es : List CalendarEvent) :
    ∀ x ∈ e :: es, ((pyMinByStart localOff e es).start.instant localOff : Int)
      ≤ x.start.instant localOff := by
  induction es generalizing e with
  | nil => simp [pyMinByStart]
  | cons y ys ih =>
    intro x hx
    rw [pyMinByStart_cons]
    by_cases h : dtLt localOff y.start e.start = true
    · rw [if_pos h]
      have hle : ((pyMinByStart localOff y ys).start.instant localOff : Int)
          ≤ y.start.instant localOff := ih y y (List.mem_cons_self _ _)
      have hlt : (y.start.instant localOff : Int) < e.start.instant localOff :=
        of_decide_eq_true h
      rcases List.mem_cons.mp hx with rfl | hx'
      · exact le_of_lt (lt_of_le_of_lt hle hlt)
      · exact ih y x hx'
    · rw [if_neg h]
      have hb : dtLt localOff y.start e.start = false := by
        simpa using h
      have hge : ¬ ((y.start.instant localOff : Int) < e.start.instant localOff) :=
        of_decide_eq_false hb
      rcases List.mem_cons.mp hx with rfl | hx'
      · exact ih x x (List.mem_cons_self _ _)
      · rcases List.mem_cons.mp hx' with rfl | hx''
        · exact le_trans (ih e e (List.mem_cons_self _ _)) (le_of_not_lt hge)
        · exact ih e x (List.mem_cons_of_mem e hx'')

/-- C8: the `event` property never returns `None`; when no cached event is
current or upcoming it returns the placeholder ("No upcoming events", start and
end exactly 365 days in the future); otherwise the current-or-upcoming event
with the earliest start. -/
theorem event_property_spec (localOff : Int) (now : PyDateTime)
    (events : List CalendarEvent) :
    event_property localOff now events ≠ none ∧
    (current_or_upcoming localOff now events = [] →
      event_property localOff now events
        = some { summary := "No upcoming events", start := addDays 365 now,
                 end_ := addDays 365 now, description := "", location := "",
                 uid := "" }) ∧
    (∀ e es, current_or_upcoming localOff now events = e :: es →
      ∃ ev, event_property localOff now events = some ev ∧
        ev ∈ e :: es ∧
        ∀ x ∈ e :: es,
          (ev.start.instant localOff : Int) ≤ x.start.instant localOff) := by
  refine ⟨?_, ?_, ?_⟩
  · cases h : current_or_upcoming localOff now events <;>
      simp [event_property, h]
  · intro h
    simp [event_property, h]
  · intro e es h
    refine ⟨pyMinByStart localOff e es, ?_, pyMinByStart_mem localOff e es,
            pyMinByStart_le localOff e es⟩
    simp [event_property, h]

/-- Witness: the C8 theorem with an empty cache: the placeholder event, 365
days ahead of `now`. -/
theorem event_property_spec_witness :
    event_property 0 { wall := 0, tz := some Tz.local } []
      = some { summary := "No upcoming events",
               start := addDays 365 { wall := 0, tz := some Tz.local },
               end_ := addDays 365 { wall := 0, tz := some Tz.local },
               description := "", location := "", uid := "" } :=
  (event_property_spec 0 { wall := 0, tz := some Tz.local } []).2.1 rfl

/-! ## iCal parsing (calendar.py:324-411) -/

/-- The value of a `DTSTART`/`DTEND` property: either a full `datetime` or a
date-only value (an ordinal day number). -/
inductive DtV
  | dt (d : PyDateTime)
  | date (day : Int)
  deriving DecidableEq, Repr

/-- An iCal component as seen by `calendar.walk()`: its component name and the
properties `_parse_ical_events` reads.  Missing properties default to `""`
via `str(component.get(..., ""))` or are `none` for the date properties. -/
structure Component where
  name : String
  summary : String
  dtstart : Option DtV
  dtend : Option DtV
  descr : String
  location : String
  uid : String
  deriving DecidableEq, Repr

/-- `datetime.combine(day, time, tzinfo=tz)`: wall clock is the day's midnight
plus the time of day. -/
def combine (day : Int) (timeUs : Int) (tz : Tz) : PyDateTime :=
  { wall := day * usPerDay + timeUs, tz := some tz }

/-- The per-VEVENT body of `_parse_ical_events` (calendar.py:328-407):
`none` when the component is not a VEVENT or has no `DTSTART`. -/
def parse_component (fixTimezone : Bool) (localOff : Int) (c : Component) :
    Option CalendarEvent :=
  if c.name = "VEVENT" then
    match c.dtstart with
    | none => none
    | some sv =>
      -- is_all_day ↔ `start.dt` is not a datetime, i.e. `sv` is date-only
      let event_start := match sv with
        | .dt d => convert_datetime_to_local fixTimezone localOff d
        | .date day => combine day 0 Tz.local
      let event_end := match c.dtend, sv with
        | some (.dt d), _ => convert_datetime_to_local fixTimezone localOff d
        | some (.date day), _ =>
          -- End date is exclusive, so subtract 1 day for the actual end,
          -- then set to end of that day (23:59:59.999999) in local timezone
          combine (day - 1) maxTimeUs Tz.local
        | none, .date day =>
          -- All-day event with no end - ends at end of start day
          combine day maxTimeUs Tz.local
        | none, .dt _ =>
          -- If no end time, assume 1 hour duration
          { event_start with wall := event_start.wall + usPerHour }
      some { summary := c.summary, start := event_start, end_ := event_end,
             description := c.descr, location := c.location, uid := c.uid }
  else none

/-- `GrocyCalendarEntity._parse_ical_events` (calendar.py:324-411): walk the
components, build events, and sort by start time (stably). -/
def parse_ical_events (fixTimezone : Bool) (localOff : Int)
    (cal : List Component) : List CalendarEvent :=
  (cal.filterMap (parse_component fixTimezone localOff)).mergeSort
    (fun a b => dtLe localOff a.start b.start)

/-- C9: a date-only `DTEND` yields an event end of 23:59:59.999999 local time
on the day before `DTEND` (exclusive end-date convention); an all-day event
with no `DTEND` ends at 23:59:59.999999 local time of its start day; a timed
event with no `DTEND` ends exactly one hour after its start. -/
theorem parse_component_end_spec (fixTimezone : Bool) (localOff : Int)
    (c : Component) (hname : c.name = "VEVENT") :
    (∀ sv endDay, c.dtstart = some sv → c.dtend = some (DtV.date endDay) →
      ∃ ev, parse_component fixTimezone localOff c = some ev ∧
        ev.end_ = combine (endDay - 1) maxTimeUs Tz.local) ∧
    (∀ startDay, c.dtstart = some (DtV.date startDay) → c.dtend = none →
      ∃ ev, parse_component fixTimezone localOff c = some ev ∧
        ev.end_ = combine startDay maxTimeUs Tz.local) ∧
    (∀ d, c.dtstart = some (DtV.dt d) → c.dtend = none →
      ∃ ev, parse_component fixTimezone localOff c = some ev ∧
        ev.start = convert_datetime_to_local fixTimezone localOff d ∧
        ev.end_ = { ev.start with wall := ev.start.wall + usPerHour }) := by
  obtain ⟨nm, sm, ds, de, dsc, loc, uid⟩ := c
  simp only at hname
  subst hname
  refine ⟨?_, ?_, ?_⟩
  · intro sv endDay hstart hend
    simp only at hstart hend
    subst hstart hend
    cases sv <;> exact ⟨_, rfl, rfl⟩
  · intro startDay hstart hend
    simp only at hstart hend
    subst hstart hend
    exact ⟨_, rfl, rfl⟩
  · intro d hstart hend
    simp only at hstart hend
    subst hstart hend
    exact ⟨_, rfl, rfl, rfl⟩

/-- Witness: the C9 theorem at concrete components, one per case.  Day 738885
is 2024-01-01; the date-only `DTEND` 738887 (2024-01-03) produces an end at
the last microsecond of 2024-01-02. -/
theorem parse_component_end_spec_witness :
    (∃ ev, parse_component true 3600000000
        { name := "VEVENT", summary := "a", dtstart := some (DtV.date 738885),
          dtend := some (DtV.date 738887), descr := "", location := "", uid := "" }
        = some ev ∧ ev.end_ = combine 738886 maxTimeUs Tz.local) ∧
    (∃ ev, parse_component true 3600000000
        { name := "VEVENT", summary := "b", dtstart := some (DtV.date 738885),
          dtend := none, descr := "", location := "", uid := "" }
        = some ev ∧ ev.end_ = combine 738885 maxTimeUs Tz.local) ∧
    (∃ ev, parse_component true 3600000000
        { name := "VEVENT", summary := "c",
          dtstart := some (DtV.dt { wall := 0, tz := none }),
          dtend := none, descr := "", location := "", uid := "" }
        = some ev ∧
        ev.start = convert_datetime_to_local true 3600000000 { wall := 0, tz := none } ∧
        ev.end_ = { ev.start with wall := ev.start.wall + usPerHour }) :=
  ⟨(parse_component_end_spec true 3600000000
      { name := "VEVENT", summary := "a", dtstart := some (DtV.date 738885),
        dtend := some (DtV.date 738887), descr := "", location := "", uid := "" }
      rfl).1 (DtV.date 738885) 738887 rfl rfl,
   (parse_component_end_spec true 3600000000
      { name := "VEVENT", summary := "b", dtstart := some (DtV.date 738885),
        dtend := none, descr := "", location := "", uid := "" }
      rfl).2.1 738885 rfl rfl,
   (parse_component_end_spec true 3600000000
      { name := "VEVENT", summary := "c",
        dtstart := some (DtV.dt { wall := 0, tz := none }),
        dtend := none, descr := "", location := "", uid := "" }
      rfl).2.2 { wall := 0, tz := none } rfl rfl⟩

/-! ## Calendar entity state and the event-cache update (calendar.py:413-441) -/

/-- The mutable fields of `GrocyCalendarEntity` that the claims touch. -/
structure CalState where
  ical_url : Option String
  events : List CalendarEvent
  last_update : Option PyDateTime
  sync_interval_minutes : Int
  available : Bool
  unsub : Option Nat
  deriving DecidableEq, Repr

/-- The outcome of one `session.get(self._ical_url)` round-trip inside
`_update_events`: either some step of fetching/decoding/parsing raised, or a
response arrived with a status code and (when the status is 200) an iCal body
already decomposed into components. -/
inductive ICalResponse
  | raiseErr
  | resp (statusCode : Nat) (cal : List Component)
  deriving DecidableEq, Repr

/-- The `try` body of `_update_events` (calendar.py:418-437): `.error` when
the HTTP round-trip or the parse raises. -/
def update_events_try (fixTimezone : Bool) (localOff : Int) (r : ICalResponse)
    (s : CalState) : Except Unit CalState :=
  match r with
  | .raiseErr => .error ()
  | .resp status cal =>
    if status ≠ 200 then
      -- Failed to fetch iCal data: log and return, cache untouched
      .ok s
    else
      .ok { s with events := parse_ical_events fixTimezone localOff cal }

/-- `GrocyCalendarEntity._update_events` (calendar.py:413-441).  The
`start_date`/`end_date` parameters of the source are unused by its body (the
whole feed is fetched and cached), so they are omitted here; the `except`
clause logs and replaces the cache with the empty list. -/
def update_events (fixTimezone : Bool) (localOff : Int) (r : ICalResponse)
    (s : CalState) : CalState :=
  match s.ical_url with
  | none => s
  | some _ =>
    match update_events_try fixTimezone localOff r s with
    | .ok s' => s'
    | .error _ => { s with events := [] }

/-- C10: with an iCal URL present, an exception while fetching or parsing
replaces the event cache by the empty list, while a non-200 HTTP status leaves
the state (and in particular the cache) unchanged. -/
theorem update_events_error_spec (fixTimezone : Bool) (localOff : Int)
    (s : CalState) (u : String) (hurl : s.ical_url = some u) :
    update_events fixTimezone localOff ICalResponse.raiseErr s
      = { s with events := [] } ∧
    (∀ status cal, status ≠ 200 →
      update_events fixTimezone localOff (ICalResponse.resp status cal) s = s) := by
  constructor
  · simp [update_events, hurl, update_events_try]
  · intro status cal hstatus
    simp [update_events, hurl, update_events_try, hstatus]

/-- Witness: the C10 theorem at a concrete state with one cached event. -/
theorem update_events_error_spec_witness :
    update_events true 0 ICalResponse.raiseErr
        { ical_url := some "http://g/ical",
          events := [{ summary := "e", start := { wall := 0, tz := some Tz.local },
                       end_ := { wall := 1, tz := some Tz.local },
                       description := "", location := "", uid := "" }],
          last_update := none, sync_interval_minutes := 60, available := true,
          unsub := none }
      = { ical_url := some "http://g/ical", events := [],
          last_update := none, sync_interval_minutes := 60, available := true,
          unsub := none } ∧
    update_events true 0 (ICalResponse.resp 404 [])
        { ical_url := some "http://g/ical",
          events := [{ summary := "e", start := { wall := 0, tz := some Tz.local },
                       end_ := { wall := 1, tz := some Tz.local },
                       description := "", location := "", uid := "" }],
          last_update := none, sync_interval_minutes := 60, available := true,
          unsub := none }
      = { ical_url := some "http://g/ical",
          events := [{ summary := "e", start := { wall := 0, tz := some Tz.local },
                       end_ := { wall := 1, tz := some Tz.local },
                       description := "", location := "", uid := "" }],
          last_update := none, sync_interval_minutes := 60, available := true,
          unsub := none } :=
  ⟨(update_events_error_spec true 0 _ "http://g/ical" rfl).1,
   (update_events_error_spec true 0 _ "http://g/ical" rfl).2 404 [] (by decide)⟩

/-! ## Range queries with staleness-based refresh (calendar.py:198-242) -/

/-- The normalisation of `_last_update` in `async_get_events`
(calendar.py:220-225): a naive value is reinterpreted as local time, an aware
one is converted with `as_local`. -/
def last_update_local (localOff : Int) (lu : PyDateTime) : PyDateTime :=
  match lu.tz with
  | none => { lu with tz := some Tz.local }
  | some _ => as_local localOff lu

/-- The staleness test of `async_get_events` (calendar.py:213-228): refresh
when the cache is empty, when no update ever completed, or when the time since
the last (normalised) update is at least the sync interval. -/
def should_refresh (localOff : Int) (now : PyDateTime) (s : CalState) : Bool :=
  if s.events.isEmpty || s.last_update.isNone then
    true
  else
    match s.last_update with
    | none => true
    | some lu =>
      decide (now.instant localOff - (last_update_local localOff lu).instant localOff
        ≥ s.sync_interval_minutes * usPerMinute)

/-- The result of `async_get_events`: the state after the call, the returned
event list, and — as an observation of the call at calendar.py:235 — the
expanded range handed to `_update_events` when a refresh happened. -/
structure GetEventsResult where
  state : CalState
  events : List CalendarEvent
  refreshWindow : Option (PyDateTime × PyDateTime)
  deriving DecidableEq, Repr

/-- `GrocyCalendarEntity.async_get_events` (calendar.py:198-242).
`fetchUrlResult` is the URL that `_fetch_ical_url` would store if invoked
(`none` when the request fails, returns non-200, or the JSON has no url);
`resp` is the environment for the inner `_update_events` call.  The `except`
around that call only logs: `update_events` is total, mirroring the source's
internal `try`/`except`. -/
def async_get_events (fixTimezone : Bool) (localOff : Int)
    (fetchUrlResult : Option String) (resp : ICalResponse)
    (now start_date end_date : PyDateTime) (s : CalState) : GetEventsResult :=
  let s1 := match s.ical_url with
    | none => { s with ical_url := fetchUrlResult }
    | some _ => s
  match s1.ical_url with
  | none => { state := s1, events := [], refreshWindow := none }
  | some _ =>
    let s2 := if should_refresh localOff now s1 then
        update_events fixTimezone localOff resp s1
      else s1
    let win := if should_refresh localOff now s1 then
        some (addDays (-30) start_date, addDays 30 end_date)
      else none
    { state := s2,
      events := s2.events.filter fun e =>
        dtLe localOff start_date e.start && dtLe localOff e.start end_date,
      refreshWindow := win }

/-- C2: `async_get_events` returns exactly the cached (post-refresh) events
whose start lies in `[start_date, end_date]` (both ends inclusive) — so no
event starting before `start_date` is returned even if it overlaps the range —
and returns the empty list when no iCal URL can be obtained. -/
theorem async_get_events_range_spec (fixTimezone : Bool) (localOff : Int)
    (fetchUrlResult : Option String) (resp : ICalResponse)
    (now start_date end_date : PyDateTime) (s : CalState) :
    (s.ical_url = none → fetchUrlResult = none →
      (async_get_events fixTimezone localOff fetchUrlResult resp
          now start_date end_date s).events = []) ∧
    (s.ical_url ≠ none ∨ fetchUrlResult ≠ none →
      (async_get_events fixTimezone localOff fetchUrlResult resp
          now start_date end_date s).events
        = (async_get_events fixTimezone localOff fetchUrlResult resp
              now start_date end_date s).state.events.filter (fun e =>
            dtLe localOff start_date e.start && dtLe localOff e.start end_date)) ∧
    (∀ e ∈ (async_get_events fixTimezone localOff fetchUrlResult resp
        now start_date end_date s).events,
      start_date.instant localOff ≤ e.start.instant localOff ∧
      e.start.instant localOff ≤ end_date.instant localOff) := by
  have hempty : s.ical_url = none → fetchUrlResult = none →
      (async_get_events fixTimezone localOff fetchUrlResult resp
          now start_date end_date s).events = [] := by
    intro h1 h2
    simp [async_get_events, h1, h2]
  have hfilter : s.ical_url ≠ none ∨ fetchUrlResult ≠ none →
      (async_get_events fixTimezone localOff fetchUrlResult resp
          now start_date end_date s).events
        = (async_get_events fixTimezone localOff fetchUrlResult resp
              now start_date end_date s).state.events.filter (fun e =>
            dtLe localOff start_date e.start && dtLe localOff e.start end_date) := by
    intro h
    rcases hs : s.ical_url with _ | u
    · rcases hf : fetchUrlResult with _ | v
      · rcases h with h | h <;> simp_all
      · simp [async_get_events, hs, hf]
    · simp [async_get_events, hs]
  refine ⟨hempty, hfilter, ?_⟩
  intro e he
  have hmem : ∀ (hob : s.ical_url ≠ none ∨ fetchUrlResult ≠ none),
      start_date.instant localOff ≤ e.start.instant localOff ∧
      e.start.instant localOff ≤ end_date.instant localOff := by
    intro hob
    rw [hfilter hob] at he
    have hp := Bool.and_eq_true _ _ |>.mp (List.mem_filter.mp he).2
    exact ⟨of_decide_eq_true hp.1, of_decide_eq_true hp.2⟩
  by_cases hu : s.ical_url = none
  · by_cases hf : fetchUrlResult = none
    · rw [hempty hu hf] at he
      exact absurd he (List.not_mem_nil e)
    · exact hmem (Or.inr hf)
  · exact hmem (Or.inl hu)

/-- Witness: the C2 theorem at concrete inputs: a cached event overlapping the
range but starting before it is dropped, one inside the range is kept, and
with no URL obtainable the result is empty. -/
theorem async_get_events_range_spec_witness :
    (async_get_events true 0 none ICalResponse.raiseErr
        { wall := 500, tz := some Tz.local } { wall := 400, tz := some Tz.local }
        { wall := 600, tz := some Tz.local }
        { ical_url := none, events := [], last_update := none,
          sync_interval_minutes := 60, available := true, unsub := none }).events
      = [] ∧
    (∀ e ∈ (async_get_events true 0 none (ICalResponse.resp 404 [])
        { wall := 500, tz := some Tz.local } { wall := 400, tz := some Tz.local }
        { wall := 600, tz := some Tz.local }
        { ical_url := some "u",
          events := [{ summary := "overlap", start := { wall := 300, tz := some Tz.local },
                       end_ := { wall := 450, tz := some Tz.local },
                       description := "", location := "", uid := "" },
                     { summary := "inside", start := { wall := 450, tz := some Tz.local },
                       end_ := { wall := 470, tz := some Tz.local },
                       description := "", location := "", uid := "" }],
          last_update := some { wall := 499, tz := some Tz.local },
          sync_interval_minutes := 60, available := true, unsub := none }).events,
      (400 : Int) ≤ e.start.instant 0 ∧ e.start.instant 0 ≤ 600) :=
  ⟨(async_get_events_range_spec true 0 none ICalResponse.raiseErr
      { wall := 500, tz := some Tz.local } { wall := 400, tz := some Tz.local }
      { wall := 600, tz := some Tz.local }
      { ical_url := none, events := [], last_update := none,
        sync_interval_minutes := 60, available := true, unsub := none }).1 rfl rfl,
   fun e he =>
     (async_get_events_range_spec true 0 none (ICalResponse.resp 404 [])
        { wall := 500, tz := some Tz.local } { wall := 400, tz := some Tz.local }
        { wall := 600, tz := some Tz.local }
        { ical_url := some "u",
          events := [{ summary := "overlap", start := { wall := 300, tz := some Tz.local },
                       end_ := { wall := 450, tz := some Tz.local },
                       description := "", location := "", uid := "" },
                     { summary := "inside", start := { wall := 450, tz := some Tz.local },
                       end_ := { wall := 470, tz := some Tz.local },
                       description := "", location := "", uid := "" }],
          last_update := some { wall := 499, tz := some Tz.local },
          sync_interval_minutes := 60, available := true, unsub := none }).2.2 e he⟩

/-- C3: `async_get_events` refreshes the cache (observed through the range it
hands to `_update_events`) if and only if the cache is empty, no update ever
completed, or the elapsed time since the last update is at least the sync
interval; the refresh targets `[start_date - 30 days, end_date + 30 days]`,
and without a refresh the cache is untouched. -/
theorem async_get_events_refresh_spec (fixTimezone : Bool) (localOff : Int)
    (fetchUrlResult : Option String) (resp : ICalResponse)
    (now start_date end_date : PyDateTime) (s : CalState) (u : String)
    (hurl : s.ical_url = some u ∨ (s.ical_url = none ∧ fetchUrlResult = some u)) :
    ((async_get_events fixTimezone localOff fetchUrlResult resp
        now start_date end_date s).refreshWindow
      = if should_refresh localOff now s then
          some (addDays (-30) start_date, addDays 30 end_date)
        else none) ∧
    (should_refresh localOff now s = true ↔
      s.events = [] ∨ s.last_update = none ∨
      ∃ lu, s.last_update = some lu ∧
        s.sync_interval_minutes * usPerMinute
          ≤ now.instant localOff - (last_update_local localOff lu).instant localOff) ∧
    (should_refresh localOff now s = false →
      (async_get_events fixTimezone localOff fetchUrlResult resp
          now start_date end_date s).state.events = s.events) := by
  have hsr : ∀ url, should_refresh localOff now { s with ical_url := url }
      = should_refresh localOff now s := fun _ => rfl
  refine ⟨?_, ?_, ?_⟩
  · rcases hurl with h | ⟨h1, h2⟩
    · simp [async_get_events, h]
    · simp [async_get_events, h1, h2, hsr]
  · constructor
    · intro h
      rw [should_refresh] at h
      rcases hemp : s.events.isEmpty || s.last_update.isNone with _ | _
      · rw [hemp, if_neg (by simp)] at h
        rcases hlu : s.last_update with _ | lu
        · exact Or.inr (Or.inl rfl)
        · rw [hlu] at h
          exact Or.inr (Or.inr ⟨lu, rfl, by
            have := of_decide_eq_true h
            omega⟩)
      · rcases Bool.or_eq_true _ _ |>.mp hemp with he | hn
        · exact Or.inl (List.isEmpty_iff.mp he)
        · exact Or.inr (Or.inl (Option.isNone_iff_eq_none.mp hn))
    · intro h
      rw [should_refresh]
      rcases h with h | h | ⟨lu, hlu, hge⟩
      · simp [h]
      · simp [h]
      · rcases hemp : s.events.isEmpty || s.last_update.isNone with _ | _
        · rw [if_neg (by simp), hlu]
          exact decide_eq_true (by omega)
        · simp
  · intro h
    rcases hurl with hu | ⟨h1, h2⟩
    · simp [async_get_events, hu, h]
    · simp [async_get_events, h1, h2, hsr, h]

/-- Witness: the C3 theorem at a concrete stale state (elapsed 100 minutes,
interval 60): the refresh window extends the query by 30 days on each side. -/
theorem async_get_events_refresh_spec_witness :
    ((async_get_events true 0 none ICalResponse.raiseErr
        { wall := 6000000000, tz := some Tz.local } { wall := 0, tz := some Tz.local }
        { wall := 1000, tz := some Tz.local }
        { ical_url := some "u",
          events := [{ summary := "e", start := { wall := 0, tz := some Tz.local },
                       end_ := { wall := 1, tz := some Tz.local },
                       description := "", location := "", uid := "" }],
          last_update := some { wall := 0, tz := some Tz.local },
          sync_interval_minutes := 60, available := true, unsub := none }).refreshWindow
      = if should_refresh 0 { wall := 6000000000, tz := some Tz.local }
            { ical_url := some "u",
              events := [{ summary := "e", start := { wall := 0, tz := some Tz.local },
                           end_ := { wall := 1, tz := some Tz.local },
                           description := "", location := "", uid := "" }],
              last_update := some { wall := 0, tz := some Tz.local },
              sync_interval_minutes := 60, available := true, unsub := none } then
          some (addDays (-30) { wall := 0, tz := some Tz.local },
                addDays 30 { wall := 1000, tz := some Tz.local })
        else none) :=
  (async_get_events_refresh_spec true 0 none ICalResponse.raiseErr
      { wall := 6000000000, tz := some Tz.local } { wall := 0, tz := some Tz.local }
      { wall := 1000, tz := some Tz.local }
      { ical_url := some "u",
        events := [{ summary := "e", start := { wall := 0, tz := some Tz.local },
                     end_ := { wall := 1, tz := some Tz.local },
                     description := "", location := "", uid := "" }],
        last_update := some { wall := 0, tz := some Tz.local },
        sync_interval_minutes := 60, available := true, unsub := none }
      "u" (Or.inl rfl)).1

/-! ## The periodic update tick (calendar.py:166-196, 244-274) -/

/-- `GrocyCalendarEntity._fetch_ical_url` (calendar.py:244-274).  Its whole
body sits in a `try`/`except` that only logs, so it is total; `fetchUrlResult`
is the `url` field of the JSON of a 200 response (`none` when the request
raises, the status is non-200, or the field is absent). -/
def fetch_ical_url (fetchUrlResult : Option String) (s : CalState) : CalState :=
  match fetchUrlResult with
  | some u => { s with ical_url := some u }
  | none => s

/-- `GrocyCalendarEntity._async_update_calendar` (calendar.py:166-196).  Every
fallible callee (`_fetch_ical_url`, `_update_events`) traps its own
exceptions, so the tick itself is total; the `except` clause at
calendar.py:192-196 is the image of `update_events_try`'s `.error` outcome,
which `update_events` already maps to a normal state. -/
def async_update_calendar (enabled fixTimezone : Bool) (localOff : Int)
    (fetchUrlResult : Option String) (resp : ICalResponse) (now : PyDateTime)
    (s : CalState) : CalState :=
  if !enabled then
    -- Calendar entity is disabled, skipping update
    s
  else
    let s1 := match s.ical_url with
      | none => fetch_ical_url fetchUrlResult s
      | some _ => s
    match s1.ical_url with
    | none =>
      -- Still mark as available even if URL fetch fails; retry later
      { s1 with available := true }
    | some _ =>
      let s2 := update_events fixTimezone localOff resp s1
      { s2 with last_update := some now, available := true }

/-- C4: a periodic tick never makes the entity unavailable: whatever the URL
fetch, the HTTP status, or the parse outcome, `_attr_available` is `true`
afterwards (and for a disabled entity the tick leaves the state alone, so an
available entity stays available).  Totality of `async_update_calendar` is the
embedding of "no exception escapes". -/
theorem async_update_calendar_available_spec (enabled fixTimezone : Bool)
    (localOff : Int) (fetchUrlResult : Option String) (resp : ICalResponse)
    (now : PyDateTime) (s : CalState) (h : s.available = true) :
    (async_update_calendar enabled fixTimezone localOff fetchUrlResult resp
        now s).available = true := by
  rcases enabled with _ | _
  · simpa [async_update_calendar] using h
  · rcases hs : s.ical_url with _ | u
    · rcases hf : fetchUrlResult with _ | v
      · simp [async_update_calendar, fetch_ical_url, hs, hf]
      · simp [async_update_calendar, fetch_ical_url, hs, hf]
    · simp [async_update_calendar, hs]

/-- Witness: the C4 theorem across a failing tick (URL present, fetch raises)
at a concrete available state. -/
theorem async_update_calendar_available_spec_witness :
    (async_update_calendar true true 0 none ICalResponse.raiseErr
        { wall := 0, tz := some Tz.local }
        { ical_url := some "u", events := [], last_update := none,
          sync_interval_minutes := 60, available := true,
          unsub := none }).available = true :=
  async_update_calendar_available_spec true true 0 none ICalResponse.raiseErr
    { wall := 0, tz := some Tz.local }
    { ical_url := some "u", events := [], last_update := none,
      sync_interval_minutes := 60, available := true, unsub := none } rfl

/-! ## Timer subscriptions (calendar.py:147-164) -/

/-- The pool of periodic timer subscriptions handed out by
`async_track_time_interval`: the ids still registered, and a fresh-id
counter. -/
structure TimerSys where
  active : List Nat
  nextId : Nat
  deriving DecidableEq, Repr

/-- Calling the unsubscribe callback returned by `async_track_time_interval`. -/
def cancelTimer (sys : TimerSys) (id : Nat) : TimerSys :=
  { sys with active := sys.active.erase id }

/-- `async_track_time_interval`: registers a new subscription and returns its
unsubscribe handle. -/
def trackTimeInterval (sys : TimerSys) : TimerSys × Nat :=
  ({ active := sys.active ++ [sys.nextId], nextId := sys.nextId + 1 }, sys.nextId)

/-- `GrocyCalendarEntity._schedule_update` (calendar.py:153-164): cancel any
previous subscription, re-read the sync interval from config, register. -/
def schedule_update (cfgInterval : Int) (s : CalState) (sys : TimerSys) :
    CalState × TimerSys :=
  let sys1 := match s.unsub with
    | some id => cancelTimer sys id
    | none => sys
  let p := trackTimeInterval sys1
  ({ s with sync_interval_minutes := cfgInterval, unsub := some p.2 }, p.1)

/-- `GrocyCalendarEntity.async_will_remove_from_hass` (calendar.py:147-151):
cancel the subscription, clear the handle. -/
def will_remove_from_hass (s : CalState) (sys : TimerSys) : CalState × TimerSys :=
  match s.unsub with
  | some id => ({ s with unsub := none }, cancelTimer sys id)
  | none => (s, sys)

/-- The timer operations the entity's lifecycle can perform. -/
inductive TimerOp
  | schedule (cfgInterval : Int)
  | remove
  deriving DecidableEq, Repr

/-- A lifecycle: any sequence of scheduling and removal steps. -/
def runTimerOps : List TimerOp → CalState × TimerSys → CalState × TimerSys
  | [], st => st
  | op :: ops, st =>
    match op with
    | .schedule c => runTimerOps ops (schedule_update c st.1 st.2)
    | .remove => runTimerOps ops (will_remove_from_hass st.1 st.2)

/-- The timer invariant: the registered subscriptions are exactly those the
entity holds a handle to, and all ids are below the fresh counter. -/
def timerInv (s : CalState) (sys : TimerSys) : Prop :=
  sys.active = s.unsub.toList ∧ ∀ id ∈ sys.active, id < sys.nextId

theorem schedule_update_inv (cfgInterval : Int) (s : CalState) (sys : TimerSys)
    (h : timerInv s sys) :
    timerInv (schedule_update cfgInterval s sys).1 (schedule_update cfgInterval s sys).2 := by
  obtain ⟨hact, hfresh⟩ := h
  rcases hu : s.unsub with _ | id
  · rw [hu] at hact
    constructor
    · simp [schedule_update, hu, trackTimeInterval, hact]
    · intro i hi
      simp only [schedule_update, hu, trackTimeInterval] at hi ⊢
      rw [hact] at hi
      simp at hi
      omega
  · rw [hu] at hact
    constructor
    · simp [schedule_update, hu, trackTimeInterval, cancelTimer, hact]
    · intro i hi
      simp only [schedule_update, hu, trackTimeInterval, cancelTimer] at hi ⊢
      rw [hact] at hi
      simp [List.erase_cons_head] at hi
      omega

theorem will_remove_from_hass_inv (s : CalState) (sys : TimerSys)
    (h : timerInv s sys) :
    timerInv (will_remove_from_hass s sys).1 (will_remove_from_hass s sys).2 := by
  obtain ⟨hact, hfresh⟩ := h
  rcases hu : s.unsub with _ | id
  · rw [hu] at hact
    exact ⟨by simp [will_remove_from_hass, hu, hact], by
      intro i hi
      simp only [will_remove_from_hass, hu] at hi ⊢
      exact hfresh i hi⟩
  · rw [hu] at hact
    constructor
    · simp [will_remove_from_hass, hu, cancelTimer, hact, List.erase_cons_head]
    · intro i hi
      simp only [will_remove_from_hass, hu, cancelTimer] at hi
      rw [hact] at hi
      simp [List.erase_cons_head] at hi

/-- C7: along any sequence of `_schedule_update` / removal steps from a state
satisfying the timer invariant, the invariant is preserved and at most one
periodic timer subscription is ever active. -/
theorem timer_single_subscription_spec (ops : List TimerOp) (s : CalState)
    (sys : TimerSys) (h : timerInv s sys) :
    timerInv (runTimerOps ops (s, sys)).1 (runTimerOps ops (s, sys)).2 ∧
    (runTimerOps ops (s, sys)).2.active.length ≤ 1 := by
  have hrun : ∀ (ops : List TimerOp) (st : CalState × TimerSys),
      timerInv st.1 st.2 →
      timerInv (runTimerOps ops st).1 (runTimerOps ops st).2 := by
    intro ops
    induction ops with
    | nil => intro st h; exact h
    | cons op rest ih =>
      intro st h
      cases op with
      | schedule c => exact ih _ (schedule_update_inv c st.1 st.2 h)
      | remove => exact ih _ (will_remove_from_hass_inv st.1 st.2 h)
  have hinv := hrun ops (s, sys) h
  refine ⟨hinv, ?_⟩
  rw [hinv.1]
  cases (runTimerOps ops (s, sys)).1.unsub <;> simp

/-- Witness: the C7 theorem on a concrete lifecycle (schedule, schedule,
remove, schedule) from the freshly initialised entity. -/
theorem timer_single_subscription_spec_witness :
    timerInv (runTimerOps [TimerOp.schedule 30, TimerOp.schedule 10, TimerOp.remove,
        TimerOp.schedule 60]
      ({ ical_url := none, events := [], last_update := none,
         sync_interval_minutes := 60, available := true, unsub := none },
       { active := [], nextId := 0 })).1
      (runTimerOps [TimerOp.schedule 30, TimerOp.schedule 10, TimerOp.remove,
          TimerOp.schedule 60]
        ({ ical_url := none, events := [], last_update := none,
           sync_interval_minutes := 60, available := true, unsub := none },
         { active := [], nextId := 0 })).2 ∧
    (runTimerOps [TimerOp.schedule 30, TimerOp.schedule 10, TimerOp.remove,
        TimerOp.schedule 60]
      ({ ical_url := none, events := [], last_update := none,
         sync_interval_minutes := 60, available := true, unsub := none },
       { active := [], nextId := 0 })).2.active.length ≤ 1 :=
  timer_single_subscription_spec
    [TimerOp.schedule 30, TimerOp.schedule 10, TimerOp.remove, TimerOp.schedule 60]
    { ical_url := none, events := [], last_update := none,
      sync_interval_minutes := 60, available := true, unsub := none }
    { active := [], nextId := 0 }
    ⟨rfl, by simp⟩

/-! ## The data update coordinator (coordinator.py:32-126) -/

/-- The field names of `GrocyCoordinatorData` (coordinator.py:32-52); entity
description keys address these fields through `__setitem__`/`__getitem__`. -/
inductive GrocyKey
  | batteries
  | chores
  | expired_products
  | expiring_products
  | meal_plan
  | missing_products
  | overdue_batteries
  | overdue_chores
  | overdue_products
  | overdue_tasks
  | shopping_list
  | stock
  | tasks
  deriving DecidableEq, Repr

/-- `GrocyCoordinatorData` (coordinator.py:32-52): every field defaults to
`None`.  The element types (`list[Battery]`, `list[Chore]`, ...) are opaque to
the claims, so they are a single type parameter `V`. -/
structure GrocyCoordinatorData (V : Type) where
  batteries : Option V
  chores : Option V
  expired_products : Option V
  expiring_products : Option V
  meal_plan : Option V
  missing_products : Option V
  overdue_batteries : Option V
  overdue_chores : Option V
  overdue_products : Option V
  overdue_tasks : Option V
  shopping_list : Option V
  stock : Option V
  tasks : Option V

/-- `GrocyCoordinatorData()` with no arguments: all fields `None`. -/
def emptyData (V : Type) : GrocyCoordinatorData V :=
  { batteries := none, chores := none, expired_products := none,
    expiring_products := none, meal_plan := none, missing_products := none,
    overdue_batteries := none, overdue_chores := none, overdue_products := none,
    overdue_tasks := none, shopping_list := none, stock := none, tasks := none }

/-- The field-by-field copy at coordinator.py:96-110 that preserves existing
data during an update. -/
def copyData {V : Type} (c : GrocyCoordinatorData V) : GrocyCoordinatorData V :=
  { batteries := c.batteries, chores := c.chores,
    expired_products := c.expired_products, expiring_products := c.expiring_products,
    meal_plan := c.meal_plan, missing_products := c.missing_products,
    overdue_batteries := c.overdue_batteries, overdue_chores := c.overdue_chores,
    overdue_products := c.overdue_products, overdue_tasks := c.overdue_tasks,
    shopping_list := c.shopping_list, stock := c.stock, tasks := c.tasks }

/-- `GrocyCoordinatorData.__getitem__` (getattr by key). -/
def getItem {V : Type} (d : GrocyCoordinatorData V) : GrocyKey → Option V
  | .batteries => d.batteries
  | .chores => d.chores
  | .expired_products => d.expired_products
  | .expiring_products => d.expiring_products
  | .meal_plan => d.meal_plan
  | .missing_products => d.missing_products
  | .overdue_batteries => d.overdue_batteries
  | .overdue_chores => d.overdue_chores
  | .overdue_products => d.overdue_products
  | .overdue_tasks => d.overdue_tasks
  | .shopping_list => d.shopping_list
  | .stock => d.stock
  | .tasks => d.tasks

/-- `GrocyCoordinatorData.__setitem__` (setattr by key). -/
def setItem {V : Type} (d : GrocyCoordinatorData V) (k : GrocyKey)
    (v : Option V) : GrocyCoordinatorData V :=
  match k with
  | .batteries => { d with batteries := v }
  | .chores => { d with chores := v }
  | .expired_products => { d with expired_products := v }
  | .expiring_products => { d with expiring_products := v }
  | .meal_plan => { d with meal_plan := v }
  | .missing_products => { d with missing_products := v }
  | .overdue_batteries => { d with overdue_batteries := v }
  | .overdue_chores => { d with overdue_chores := v }
  | .overdue_products => { d with overdue_products := v }
  | .overdue_tasks => { d with overdue_tasks := v }
  | .shopping_list => { d with shopping_list := v }
  | .stock => { d with stock := v }
  | .tasks => { d with tasks := v }

theorem getItem_setItem {V : Type} (d : GrocyCoordinatorData V) (k k' : GrocyKey)
    (v : Option V) :
    getItem (setItem d k v) k' = if k' = k then v else getItem d k' := by
  cases k <;> cases k' <;> simp [getItem, setItem]

theorem getItem_copyData {V : Type} (c : GrocyCoordinatorData V) (k : GrocyKey) :
    getItem (copyData c) k = getItem c k := by
  cases k <;> rfl

theorem getItem_emptyData (V : Type) (k : GrocyKey) :
    getItem (emptyData V) k = none := by
  cases k <;> rfl

/-- A member of `coordinator.entities`: its enabled flag and its
`entity_description.key`. -/
structure RegisteredEntity where
  enabled : Bool
  key : GrocyKey
  deriving DecidableEq, Repr

/-- The `for entity in self.entities` loop of `_async_update_data`
(coordinator.py:112-124): skip disabled entities, fetch and store per key,
and raise `UpdateFailed` on the first fetch exception.  `fetch` is
`grocy_data.async_update_data` (grocy_data.py is outside the embedded
sources, so its per-key outcome is an environment parameter). -/
def updateLoop {V : Type} (fetch : GrocyKey → Except String V) :
    List RegisteredEntity → GrocyCoordinatorData V →
    Except String (GrocyCoordinatorData V)
  | [], d => .ok d
  | e :: es, d =>
    if e.enabled then
      match fetch e.key with
      | .ok v => updateLoop fetch es (setItem d e.key (some v))
      | .error err => .error ("Update failed: " ++ err)
    else
      updateLoop fetch es d

/-- `GrocyDataUpdateCoordinator._async_update_data` (coordinator.py:87-126):
start from empty data on the first refresh, otherwise from a copy of the
current data, then run the entity loop. -/
def coordinator_update_data {V : Type} (fetch : GrocyKey → Except String V)
    (entities : List RegisteredEntity)
    (current : Option (GrocyCoordinatorData V)) :
    Except String (GrocyCoordinatorData V) :=
  let data := match current with
    | none => emptyData V
    | some c => copyData c
  updateLoop fetch entities data

theorem updateLoop_frame {V : Type} (fetch : GrocyKey → Except String V)
    (es : List RegisteredEntity) (d d' : GrocyCoordinatorData V) (k : GrocyKey)
    (hk : ∀ e ∈ es, e.enabled = true → e.key ≠ k)
    (h : updateLoop fetch es d = .ok d') :
    getItem d' k = getItem d k := by
  induction es generalizing d with
  | nil =>
    simp only [updateLoop] at h
    cases h
    rfl
  | cons e es ih =>
    by_cases he : e.enabled = true
    · simp only [updateLoop, if_pos he] at h
      rcases hf : fetch e.key with v | v
      · rw [hf] at h
        simp at h
      · rw [hf] at h
        have hne : e.key ≠ k := hk e (List.mem_cons_self _ _) he
        rw [ih (setItem d e.key (some v)) (fun x hx => hk x (List.mem_cons_of_mem e hx)) h,
            getItem_setItem, if_neg (fun hc => hne hc.symm)]
    · simp only [updateLoop, if_neg he] at h
      exact ih d (fun x hx => hk x (List.mem_cons_of_mem e hx)) h

theorem updateLoop_fetched {V : Type} (fetch : GrocyKey → Except String V)
    (es : List RegisteredEntity) (d d' : GrocyCoordinatorData V) (k : GrocyKey)
    (v : V) (hv : fetch k = .ok v)
    (hk : ∃ e ∈ es, e.enabled = true ∧ e.key = k)
    (h : updateLoop fetch es d = .ok d') :
    getItem d' k = some v := by
  induction es generalizing d with
  | nil =>
    obtain ⟨e, he, _⟩ := hk
    exact absurd he (List.not_mem_nil e)
  | cons e es ih =>
    by_cases hrest : ∃ x ∈ es, x.enabled = true ∧ x.key = k
    · by_cases he : e.enabled = true
      · simp only [updateLoop, if_pos he] at h
        rcases hf : fetch e.key with w | w
        · rw [hf] at h
          simp at h
        · rw [hf] at h
          exact ih (setItem d e.key (some w)) hrest h
      · simp only [updateLoop, if_neg he] at h
        exact ih d hrest h
    · obtain ⟨x, hx, hxe, hxk⟩ := hk
      rcases List.mem_cons.mp hx with rfl | hx'
      · have he : x.enabled = true := hxe
        simp only [updateLoop, if_pos he] at h
        subst hxk
        rcases hf : fetch x.key with w | w
        · rw [hf] at hv
          simp at hv
        · rw [hf] at h
          rw [hf] at hv
          cases hv
          rw [updateLoop_frame fetch es _ d' x.key ?hne h, getItem_setItem,
              if_pos rfl]
          intro y hy hye hyk
          exact hrest ⟨y, hy, hye, hyk⟩
      · exact absurd ⟨x, hx', hxe, hxk⟩ hrest

/-- C5: on a coordinator refresh that returns data, a key with no enabled
registered entity keeps its prior value (and is `None` on the first refresh,
where there is no prior data), while the key of an enabled registered entity
whose fetch returned a value holds exactly that value. -/
theorem coordinator_update_data_frame_spec {V : Type}
    (fetch : GrocyKey → Except String V) (entities : List RegisteredEntity)
    (current : Option (GrocyCoordinatorData V)) (d' : GrocyCoordinatorData V)
    (h : coordinator_update_data fetch entities current = .ok d') :
    (∀ k, (∀ e ∈ entities, e.enabled = true → e.key ≠ k) →
      getItem d' k = (match current with
        | none => none
        | some c => getItem c k)) ∧
    (∀ k v, fetch k = .ok v → (∃ e ∈ entities, e.enabled = true ∧ e.key = k) →
      getItem d' k = some v) := by
  constructor
  · intro k hk
    rcases current with _ | c
    · rw [updateLoop_frame fetch entities (emptyData V) d' k hk h,
          getItem_emptyData]
    · rw [updateLoop_frame fetch entities (copyData c) d' k hk h,
          getItem_copyData]
  · intro k v hv hk
    rcases current with _ | c
    · exact updateLoop_fetched fetch entities (emptyData V) d' k v hv hk h
    · exact updateLoop_fetched fetch entities (copyData c) d' k v hv hk h

/-- Witness: the C5 theorem at a concrete refresh: one enabled `stock` entity,
one disabled `chores` entity, prior data carrying a `chores` value.  `chores`
keeps its value, `stock` is overwritten. -/
theorem coordinator_update_data_frame_spec_witness :
    getItem (GrocyCoordinatorData.mk (V := Nat) none (some 5) none none none none
        none none none none none none none) GrocyKey.chores = some 5 ∧
    (∀ d', coordinator_update_data
        (fun _ => Except.ok (7 : Nat))
        [{ enabled := true, key := GrocyKey.stock },
         { enabled := false, key := GrocyKey.chores }]
        (some (GrocyCoordinatorData.mk none (some 5) none none none none
          none none none none none none none)) = .ok d' →
      getItem d' GrocyKey.chores = some 5 ∧ getItem d' GrocyKey.stock = some 7) :=
  ⟨rfl, fun d' h =>
    ⟨by
      have hc := (coordinator_update_data_frame_spec
        (fun _ => Except.ok (7 : Nat))
        [{ enabled := true, key := GrocyKey.stock },
         { enabled := false, key := GrocyKey.chores }]
        (some (GrocyCoordinatorData.mk none (some 5) none none none none
          none none none none none none none)) d' h).1 GrocyKey.chores
        (by decide)
      simpa using hc,
     (coordinator_update_data_frame_spec
        (fun _ => Except.ok (7 : Nat))
        [{ enabled := true, key := GrocyKey.stock },
         { enabled := false, key := GrocyKey.chores }]
        (some (GrocyCoordinatorData.mk none (some 5) none none none none
          none none none none none none none)) d' h).2 GrocyKey.stock 7 rfl
        ⟨{ enabled := true, key := GrocyKey.stock }, by decide, rfl, rfl⟩⟩⟩

theorem updateLoop_fails {V : Type} (fetch : GrocyKey → Except String V)
    (es : List RegisteredEntity)
    (hk : ∃ e ∈ es, e.enabled = true ∧ ∃ msg, fetch e.key = .error msg)
    (d : GrocyCoordinatorData V) :
    ∃ msg, updateLoop fetch es d = .error msg := by
  obtain ⟨e, he, hen, msg, hmsg⟩ := hk
  induction es generalizing d with
  | nil => exact absurd he (List.not_mem_nil e)
  | cons x es ih =>
    rcases List.mem_cons.mp he with rfl | hx'
    · rw [updateLoop, if_pos hen, hmsg]
      exact ⟨_, rfl⟩
    · by_cases hxe : x.enabled = true
      · rw [updateLoop, if_pos hxe]
        rcases hf : fetch x.key with w | w
        · exact ⟨_, rfl⟩
        · exact ih _ hx'
      · rw [updateLoop, if_neg hxe]
        exact ih _ hx'

/-- C6: if the fetch for some enabled registered entity raises, the whole
refresh raises `UpdateFailed`: `_async_update_data` returns no data that
cycle. -/
theorem coordinator_update_data_fails_spec {V : Type}
    (fetch : GrocyKey → Except String V) (entities : List RegisteredEntity)
    (current : Option (GrocyCoordinatorData V))
    (hk : ∃ e ∈ entities, e.enabled = true ∧ ∃ msg, fetch e.key = .error msg) :
    ∃ msg, coordinator_update_data fetch entities current = .error msg := by
  rcases current with _ | c
  · exact updateLoop_fails fetch entities hk (emptyData V)
  · exact updateLoop_fails fetch entities hk (copyData c)

/-- Witness: the C6 theorem with one enabled entity whose fetch raises. -/
theorem coordinator_update_data_fails_spec_witness :
    ∃ msg, coordinator_update_data (V := Nat)
        (fun _ => Except.error "boom")
        [{ enabled := true, key := GrocyKey.stock }] none = .error msg :=
  coordinator_update_data_fails_spec (fun _ => Except.error "boom")
    [{ enabled := true, key := GrocyKey.stock }] none
    ⟨{ enabled := true, key := GrocyKey.stock }, by decide, rfl, "boom", rfl⟩

end Grocy
